import Mathlib

set_option maxRecDepth 100000

/-!
Verification development for `src/hotel_dump.py`: a script that resolves the
latest snapshot token under the `hotels/` key space of an object-storage
bucket, downloads missing files into `<dest>/hotels/<token>/`, verifies each
download's MD5 digest against the remote e-tag, and renames verified temp
files into place.

The embedding below translates the Python source directly: strings are Lean
`String`s, file contents are byte lists (`List Nat`, each entry < 256 by
construction of MD5's consumers), the local filesystem is an association list
from paths to contents plus a directory set, and the run is a left fold of a
step function over the bucket listing, threading a state that records the
filesystem, an event log (remote listing calls, downloads, hash
verifications, renames) and the pending fatal error, mirroring the script's
assert-based aborts.
-/

namespace HotelDump

/-! ### MD5

Modelled from the spec: the source calls `hashlib.md5` (Python standard
library, not part of this repository) through `update`/`hexdigest`; its
public contract is the MD5 algorithm of RFC 1321 applied to the
concatenation of all bytes fed to `update`, rendered as lowercase hex.
The algorithm is reproduced here in full: 32-bit words are `Nat`s reduced
mod 2^32 at each operation. -/

def u32 : Nat := 4294967296

def add32 (a b : Nat) : Nat := (a + b) % u32

def not32 (a : Nat) : Nat := Nat.xor a (u32 - 1)

def rotl32 (x s : Nat) : Nat := Nat.lor ((x <<< s) % u32) (x >>> (32 - s))

def md5F (b c d : Nat) : Nat := Nat.lor (Nat.land b c) (Nat.land (not32 b) d)

def md5G (b c d : Nat) : Nat := Nat.lor (Nat.land d b) (Nat.land (not32 d) c)

def md5H (b c d : Nat) : Nat := Nat.xor b (Nat.xor c d)

def md5I (b c d : Nat) : Nat := Nat.xor c (Nat.lor b (not32 d))

/-- RFC 1321 sine-derived additive constants `T[i] = ⌊|sin(i+1)| · 2^32⌋`. -/
def md5T : List Nat :=
  [0xd76aa478, 0xe8c7b756, 0x242070db, 0xc1bdceee,
   0xf57c0faf, 0x4787c62a, 0xa8304613, 0xfd469501,
   0x698098d8, 0x8b44f7af, 0xffff5bb1, 0x895cd7be,
   0x6b901122, 0xfd987193, 0xa679438e, 0x49b40821,
   0xf61e2562, 0xc040b340, 0x265e5a51, 0xe9b6c7aa,
   0xd62f105d, 0x02441453, 0xd8a1e681, 0xe7d3fbc8,
   0x21e1cde6, 0xc33707d6, 0xf4d50d87, 0x455a14ed,
   0xa9e3e905, 0xfcefa3f8, 0x676f02d9, 0x8d2a4c8a,
   0xfffa3942, 0x8771f681, 0x6d9d6122, 0xfde5380c,
   0xa4beea44, 0x4bdecfa9, 0xf6bb4b60, 0xbebfbc70,
   0x289b7ec6, 0xeaa127fa, 0xd4ef3085, 0x04881d05,
   0xd9d4d039, 0xe6db99e5, 0x1fa27cf8, 0xc4ac5665,
   0xf4292244, 0x432aff97, 0xab9423a7, 0xfc93a039,
   0x655b59c3, 0x8f0ccc92, 0xffeff47d, 0x85845dd1,
   0x6fa87e4f, 0xfe2ce6e0, 0xa3014314, 0x4e0811a1,
   0xf7537e82, 0xbd3af235, 0x2ad7d2bb, 0xeb86d391]

/-- RFC 1321 per-round left-rotation amounts. -/
def md5S : List Nat :=
  [7, 12, 17, 22, 7, 12, 17, 22, 7, 12, 17, 22, 7, 12, 17, 22,
   5,  9, 14, 20, 5,  9, 14, 20, 5,  9, 14, 20, 5,  9, 14, 20,
   4, 11, 16, 23, 4, 11, 16, 23, 4, 11, 16, 23, 4, 11, 16, 23,
   6, 10, 15, 21, 6, 10, 15, 21, 6, 10, 15, 21, 6, 10, 15, 21]

/-- Message-word schedule: which of the 16 block words round `i` consumes. -/
def md5MsgIdx (i : Nat) : Nat :=
  if i < 16 then i
  else if i < 32 then (5 * i + 1) % 16
  else if i < 48 then (3 * i + 5) % 16
  else (7 * i) % 16

def md5Mix (i b c d : Nat) : Nat :=
  if i < 16 then md5F b c d
  else if i < 32 then md5G b c d
  else if i < 48 then md5H b c d
  else md5I b c d

def md5Round (M : List Nat) (st : Nat × Nat × Nat × Nat) (i : Nat) :
    Nat × Nat × Nat × Nat :=
  let (a, b, c, d) := st
  let f := md5Mix i b c d
  let m := M.getD (md5MsgIdx i) 0
  let t := md5T.getD i 0
  let s := md5S.getD i 0
  (d, add32 b (rotl32 (add32 (add32 (add32 a f) m) t) s), b, c)

def md5ProcessBlock (st : Nat × Nat × Nat × Nat) (M : List Nat) :
    Nat × Nat × Nat × Nat :=
  let (a0, b0, c0, d0) := st
  let (a, b, c, d) := (List.range 64).foldl (md5Round M) st
  (add32 a0 a, add32 b0 b, add32 c0 c, add32 d0 d)

/-- Little-endian byte rendering of `v`, `n` bytes wide (truncating). -/
def leBytes : Nat → Nat → List Nat
  | 0, _ => []
  | n + 1, v => v % 256 :: leBytes n (v / 256)

/-- Group bytes into little-endian 32-bit words (complete groups of 4). -/
def toWordsLE : List Nat → List Nat
  | b0 :: b1 :: b2 :: b3 :: rest =>
      (b0 + 256 * b1 + 65536 * b2 + 16777216 * b3) :: toWordsLE rest
  | _ => []

/-- RFC 1321 padding: `0x80`, zeros to 56 mod 64, 8-byte LE bit length. -/
def md5Pad (msg : List Nat) : List Nat :=
  let len := msg.length
  let k := (120 - (len + 1) % 64) % 64
  msg ++ 0x80 :: List.replicate k 0 ++ leBytes 8 (len * 8)

/-- Split a list into chunks of `n` elements (last chunk may be short).
`fuel` bounds the recursion depth; it is structural so that the kernel can
evaluate the definition (any `fuel ≥ l.length` gives the same result when
`n ≥ 1`, see `chunksFuel_flatten`). -/
def chunksFuel (n : Nat) : Nat → List α → List (List α)
  | 0, _ => []
  | _ + 1, [] => []
  | fuel + 1, a :: l => (a :: l).take n :: chunksFuel n fuel ((a :: l).drop n)

def chunksOf (n : Nat) (l : List α) : List (List α) := chunksFuel n l.length l

def md5Init : Nat × Nat × Nat × Nat :=
  (0x67452301, 0xefcdab89, 0x98badcfe, 0x10325476)

/-- The 16-byte MD5 digest of a byte sequence. -/
def md5Digest (msg : List Nat) : List Nat :=
  let blocks := (chunksOf 64 (md5Pad msg)).map toWordsLE
  let (a, b, c, d) := blocks.foldl md5ProcessBlock md5Init
  leBytes 4 a ++ leBytes 4 b ++ leBytes 4 c ++ leBytes 4 d

def hexChar (n : Nat) : Char :=
  if n < 10 then Char.ofNat (48 + n) else Char.ofNat (87 + n)

def byteToHex (b : Nat) : List Char := [hexChar (b / 16), hexChar (b % 16)]

/-- Lowercase-hex MD5 digest of a byte sequence (`hexdigest`). -/
def md5Hex (msg : List Nat) : String :=
  String.mk (((md5Digest msg).map byteToHex).flatten)

/-- The `hashlib.md5()` context: the bytes accumulated so far. -/
def md5ctxUpdate (ctx chunk : List Nat) : List Nat := ctx ++ chunk

def md5ctxHexdigest (ctx : List Nat) : String := md5Hex ctx

/-- Source `md5(path)`: stream the file in 4096-byte chunks into a
fresh context and return the hex digest.  The argument is the byte content
of the file at `path`. -/
def md5 (content : List Nat) : String :=
  md5ctxHexdigest ((chunksOf 4096 content).foldl md5ctxUpdate [])

/-- First message of the Wang–Feng–Lai–Yu MD5 collision pair (128 bytes). -/
def wangM1 : List Nat :=
  [0xd1, 0x31, 0xdd, 0x02, 0xc5, 0xe6, 0xee, 0xc4,
   0x69, 0x3d, 0x9a, 0x06, 0x98, 0xaf, 0xf9, 0x5c,
   0x2f, 0xca, 0xb5, 0x87, 0x12, 0x46, 0x7e, 0xab,
   0x40, 0x04, 0x58, 0x3e, 0xb8, 0xfb, 0x7f, 0x89,
   0x55, 0xad, 0x34, 0x06, 0x09, 0xf4, 0xb3, 0x02,
   0x83, 0xe4, 0x88, 0x83, 0x25, 0x71, 0x41, 0x5a,
   0x08, 0x51, 0x25, 0xe8, 0xf7, 0xcd, 0xc9, 0x9f,
   0xd9, 0x1d, 0xbd, 0xf2, 0x80, 0x37, 0x3c, 0x5b,
   0xd8, 0x82, 0x3e, 0x31, 0x56, 0x34, 0x8f, 0x5b,
   0xae, 0x6d, 0xac, 0xd4, 0x36, 0xc9, 0x19, 0xc6,
   0xdd, 0x53, 0xe2, 0xb4, 0x87, 0xda, 0x03, 0xfd,
   0x02, 0x39, 0x63, 0x06, 0xd2, 0x48, 0xcd, 0xa0,
   0xe9, 0x9f, 0x33, 0x42, 0x0f, 0x57, 0x7e, 0xe8,
   0xce, 0x54, 0xb6, 0x70, 0x80, 0xa8, 0x0d, 0x1e,
   0xc6, 0x98, 0x21, 0xbc, 0xb6, 0xa8, 0x83, 0x93,
   0x96, 0xf9, 0x65, 0x2b, 0x6f, 0xf7, 0x2a, 0x70]

/-- Second message of the collision pair: differs from `wangM1` in exactly
six bytes (offsets 19, 45, 59, 83, 109, 123) yet has the same MD5 digest. -/
def wangM2 : List Nat :=
  [0xd1, 0x31, 0xdd, 0x02, 0xc5, 0xe6, 0xee, 0xc4,
   0x69, 0x3d, 0x9a, 0x06, 0x98, 0xaf, 0xf9, 0x5c,
   0x2f, 0xca, 0xb5, 0x07, 0x12, 0x46, 0x7e, 0xab,
   0x40, 0x04, 0x58, 0x3e, 0xb8, 0xfb, 0x7f, 0x89,
   0x55, 0xad, 0x34, 0x06, 0x09, 0xf4, 0xb3, 0x02,
   0x83, 0xe4, 0x88, 0x83, 0x25, 0xf1, 0x41, 0x5a,
   0x08, 0x51, 0x25, 0xe8, 0xf7, 0xcd, 0xc9, 0x9f,
   0xd9, 0x1d, 0xbd, 0x72, 0x80, 0x37, 0x3c, 0x5b,
   0xd8, 0x82, 0x3e, 0x31, 0x56, 0x34, 0x8f, 0x5b,
   0xae, 0x6d, 0xac, 0xd4, 0x36, 0xc9, 0x19, 0xc6,
   0xdd, 0x53, 0xe2, 0x34, 0x87, 0xda, 0x03, 0xfd,
   0x02, 0x39, 0x63, 0x06, 0xd2, 0x48, 0xcd, 0xa0,
   0xe9, 0x9f, 0x33, 0x42, 0x0f, 0x57, 0x7e, 0xe8,
   0xce, 0x54, 0xb6, 0x70, 0x80, 0x28, 0x0d, 0x1e,
   0xc6, 0x98, 0x21, 0xbc, 0xb6, 0xa8, 0x83, 0x93,
   0x96, 0xf9, 0x65, 0xab, 0x6f, 0xf7, 0x2a, 0x70]

/-! ### Remote and local state -/

/-- One remote object: its listing key, its e-tag as reported by the
service (an arbitrary string chosen by the service), and its byte content
(what `download_file` writes).  A bucket listing is a `List S3Object` in
listing order; `bucket.objects.filter(Prefix=p)` keeps the keys starting
with `p`. -/
structure S3Object where
  key : String
  e_tag : String
  content : List Nat
deriving DecidableEq

/-- Listing call `bucket.objects.filter(Prefix=pfx)`: keys starting with `pfx`, in
listing order.  (Character-list prefix test; equivalent to string-prefix.) -/
def filterPfx (pfx : String) (bucket : List S3Object) : List S3Object :=
  bucket.filter fun o => pfx.data.isPrefixOf o.key.data

/-- Local filesystem: files as an association list from path to byte
content (later writes shadow earlier ones), plus the set of directories
created.  `os.path.exists` is true for files and directories. -/
structure FS where
  files : List (String × List Nat)
  dirs : List String
deriving DecidableEq

/-- Look a path up in the file table (first binding wins). -/
def lookupFile : List (String × List Nat) → String → Option (List Nat)
  | [], _ => none
  | (k, v) :: rest, p => if k = p then some v else lookupFile rest p

/-- Drop every binding of a path from the file table. -/
def eraseFile : List (String × List Nat) → String → List (String × List Nat)
  | [], _ => []
  | (k, v) :: rest, p => if k = p then eraseFile rest p else (k, v) :: eraseFile rest p

def FS.readFile (fs : FS) (p : String) : Option (List Nat) :=
  lookupFile fs.files p

def FS.fileExists (fs : FS) (p : String) : Bool :=
  (fs.readFile p).isSome

def FS.dirExists (fs : FS) (p : String) : Bool :=
  fs.dirs.contains p

def FS.pathExists (fs : FS) (p : String) : Bool :=
  fs.fileExists p || fs.dirExists p

def FS.writeFile (fs : FS) (p : String) (c : List Nat) : FS :=
  { fs with files := (p, c) :: eraseFile fs.files p }

def FS.removeFile (fs : FS) (p : String) : FS :=
  { fs with files := eraseFile fs.files p }

/-- Model of `os.rename src dst`: move the file at `src` to `dst` (replacing any
file at `dst`).  In every reachable call `src` exists; if it does not,
this is a no-op. -/
def FS.rename (fs : FS) (src dst : String) : FS :=
  match fs.readFile src with
  | none => fs
  | some c => (fs.removeFile src).writeFile dst c

/-- Model of `os.makedirs`: record the directory (intermediate levels are not
tracked; no claim depends on them). -/
def FS.makedirs (fs : FS) (p : String) : FS :=
  { fs with dirs := p :: fs.dirs }

/-- Observable actions of a run.  `listObjects` and `downloadObject` are
remote interactions; `verifyHash` marks one MD5 computation of a
downloaded temp file, `renameFile` one `os.rename`. -/
inductive Event where
  | listObjects (pfx : String)
  | downloadObject (key : String) (path : String)
  | verifyHash (path : String)
  | renameFile (src dst : String)
deriving DecidableEq

def Event.isRemote : Event → Bool
  | .listObjects _ => true
  | .downloadObject _ _ => true
  | _ => false

/-- State threaded through a run: the filesystem, the event log, and the
pending fatal error (`assert` message), if any.  Once `error` is set the
run is over; the fold ignores the remaining entries, mirroring the
exception abort. -/
structure RunState where
  fs : FS
  events : List Event
  error : Option String
deriving DecidableEq

/-! ### Snapshot Resolver (`download_latest`, first loop) -/

/-- Match `re.match("^hotels/([^/]+)$", key)`: the key is `hotels/` followed by
one or more characters none of which is `/`; returns the captured group. -/
def matchDoneFile (key : String) : Option String :=
  match key.data with
  | 'h' :: 'o' :: 't' :: 'e' :: 'l' :: 's' :: '/' :: rest =>
      if rest ≠ [] ∧ rest.all (fun c => c ≠ '/') then some (String.mk rest) else none
  | _ => none

/-- Lexicographic order on character lists, comparing code points — the
order Python uses for `str` comparison. -/
def charListLt : List Char → List Char → Bool
  | [], [] => false
  | [], _ :: _ => true
  | _ :: _, [] => false
  | a :: as, b :: bs =>
      if a < b then true
      else if b < a then false
      else charListLt as bs

/-- Python `a < b` on strings. -/
def strLtb (a b : String) : Bool := charListLt a.data b.data

/-- Update `if latest_date is None or date > latest_date: latest_date = date`. -/
def resolveUpd (acc : Option String) (date : String) : Option String :=
  match acc with
  | none => some date
  | some m => if strLtb m date then some date else some m

/-- One iteration of the resolver loop: update the running latest token
when the key matches the one-segment pattern. -/
def resolveStep (acc : Option String) (o : S3Object) : Option String :=
  match matchDoneFile o.key with
  | none => acc
  | some date => resolveUpd acc date

def resolveLatest (bucket : List S3Object) : Option String :=
  (filterPfx "hotels/" bucket).foldl resolveStep none

/-- The snapshot tokens the resolver loop extracts, in listing order. -/
def snapshotTokens (bucket : List S3Object) : List String :=
  (filterPfx "hotels/" bucket).filterMap fun o => matchDoneFile o.key

/-! ### File Synchronizer (`download_latest`, second loop) -/

/-- Python `key.split("/")`, on the character list. -/
def splitOnSlash : List Char → List (List Char)
  | [] => [[]]
  | c :: rest =>
      let r := splitOnSlash rest
      if c = '/' then [] :: r
      else
        match r with
        | [] => [[c]]
        | h :: t => (c :: h) :: t

/-- Basename `key.split("/")[-1]`. -/
def basenameOf (key : String) : String :=
  String.mk ((splitOnSlash key.data).getLastD [])

/-- Model of `os.path.join` for the relative, slash-free components this program
joins. -/
def joinPath (a b : String) : String := a ++ "/" ++ b

def finalPath (targetFolder : String) (o : S3Object) : String :=
  joinPath targetFolder (basenameOf o.key)

def tmpPath (targetFolder : String) (o : S3Object) : String :=
  finalPath targetFolder o ++ "_tmp"

/-- Quoting convention of the e-tag: the hex digest wrapped in literal
double-quote characters, as the source formats it. -/
def quoteTag (h : String) : String := "\"" ++ h ++ "\""

/-- Error message of the integrity `assert`. -/
def checksumErr : String := "Checksums don't match, download failed!"

/-- Download branch of the loop body: write the object's bytes to the temp
path, hash the temp file, compare the quoted hash with the e-tag; on match
rename the temp file into place, on mismatch abort with `checksumErr`. -/
def syncDownload (targetFolder : String) (st : RunState) (o : S3Object) : RunState :=
  let localPath := finalPath targetFolder o
  let localTmpPath := tmpPath targetFolder o
  let fs1 := st.fs.writeFile localTmpPath o.content
  let events1 := st.events ++
    [Event.downloadObject o.key localTmpPath, Event.verifyHash localTmpPath]
  let expected_e_tag := quoteTag (md5 ((fs1.readFile localTmpPath).getD []))
  if expected_e_tag = o.e_tag then
    { fs := fs1.rename localTmpPath localPath,
      events := events1 ++ [Event.renameFile localTmpPath localPath],
      error := none }
  else
    { fs := fs1, events := events1, error := some checksumErr }

/-- Loop body of the synchronizer, for one listing entry. -/
def syncStep (targetFolder : String) (st : RunState) (o : S3Object) : RunState :=
  if st.error.isSome then st
  else if basenameOf o.key = "done" then st
  else if st.fs.pathExists (finalPath targetFolder o) then st
  else syncDownload targetFolder st o

/-- Error message of the resolver `assert`. -/
def noDumpErr : String := "No complete dump folder found!"

/-- Run of `download_latest(dest_folder)` over bucket `bucket`, starting from
filesystem `fs0`. -/
def downloadLatest (bucket : List S3Object) (destFolder : String) (fs0 : FS) : RunState :=
  let ev0 := [Event.listObjects "hotels/"]
  match resolveLatest bucket with
  | none => { fs := fs0, events := ev0, error := some noDumpErr }
  | some latestDate =>
      let targetFolder := joinPath (joinPath destFolder "hotels") latestDate
      let fs1 := if fs0.pathExists targetFolder then fs0 else fs0.makedirs targetFolder
      let st0 : RunState :=
        { fs := fs1,
          events := ev0 ++ [Event.listObjects ("hotels/" ++ latestDate)],
          error := none }
      (filterPfx ("hotels/" ++ latestDate) bucket).foldl (syncStep targetFolder) st0

/-- Error message of the destination-folder `assert` in `__main__`. -/
def destErr : String := "Destination folder does not exist!"

/-- The `__main__` block: check the destination folder exists and is a
directory before any remote interaction, then run `download_latest`. -/
def mainRun (bucket : List S3Object) (destFolder : String) (fs0 : FS) : RunState :=
  if fs0.pathExists destFolder && fs0.dirExists destFolder then
    downloadLatest bucket destFolder fs0
  else
    { fs := fs0, events := [], error := some destErr }

/-- The e-tag the service reports for an object uploaded in a single part:
the MD5 hex digest of its content wrapped in double quotes. -/
def singlePartETag (content : List Nat) : String := quoteTag (md5Hex content)

/-! ### Concrete inputs used by counterexamples and witnesses -/

def emptyFS : FS := ⟨[], []⟩

/-- A listing presenting one snapshot token, with no `done` marker object
anywhere under the snapshot's prefix. -/
def markerlessBucket : List S3Object := [⟨"hotels/20230202", "\"e\"", []⟩]

/-- Listing for the temp/final name-collision run: the snapshot token is
`t`; the entry `hotels/t/a` has an e-tag that cannot match, so its download
aborts the run, stranding raw bytes at `d/hotels/t/a_tmp` — which is the
final local path of the listed entry `hotels/t/a_tmp`. -/
def appearBucket : List S3Object :=
  [⟨"hotels/t", "\"e0\"", []⟩,
   ⟨"hotels/t/a", "\"bad\"", [1]⟩,
   ⟨"hotels/t/a_tmp", "\"other\"", [2]⟩]

/-- Local state for the name-collision abort run: the destination `d`
exists and the file for entry `hotels/t` is already synchronized. -/
def appearFS : FS := ⟨[("d/hotels/t/t", [])], ["d"]⟩

/-- Listing for the overwrite run: entries `hotels/t/a_tmp` (already
synchronized locally) and `hotels/t/a` (missing locally, with a correct
single-part e-tag).  Downloading `a` writes to `d/hotels/t/a_tmp`,
clobbering and then renaming away the finalized file of the other entry. -/
def frameBucket : List S3Object :=
  [⟨"hotels/t", "\"e0\"", []⟩,
   ⟨"hotels/t/a_tmp", quoteTag (md5 [5]), [5]⟩,
   ⟨"hotels/t/a", quoteTag (md5 [7]), [7]⟩]

/-- Local state for the overwrite run: `d` exists, the files of entries
`hotels/t` and `hotels/t/a_tmp` are already present at their final paths. -/
def frameFS : FS := ⟨[("d/hotels/t/t", []), ("d/hotels/t/a_tmp", [5])], ["d"]⟩

/-- An entry whose file already exists locally, and a state containing it. -/
def wObjExisting : S3Object := ⟨"hotels/t/a", "\"x\"", [9]⟩

def wStExisting : RunState := ⟨⟨[("d/hotels/t/a", [])], []⟩, [], none⟩

def wObjDone : S3Object := ⟨"hotels/t/done", "\"x\"", []⟩

def wStEmpty : RunState := ⟨emptyFS, [], none⟩

/-- An entry whose e-tag can match no content (not of the quoted form). -/
def wObjBad : S3Object := ⟨"hotels/t/b", "\"bad\"", [1]⟩

/-- A two-token listing for the resolver witness. -/
def wBucketTwo : List S3Object :=
  [⟨"hotels/b", "\"e\"", []⟩, ⟨"hotels/a", "\"e\"", []⟩]

/-- A one-entry listing whose single download succeeds and is renamed. -/
def wBucketOk : List S3Object := [⟨"hotels/t", quoteTag (md5 [3]), [3]⟩]

/-- Destination directory `d` exists and is otherwise empty. -/
def wFSDir : FS := ⟨[], ["d"]⟩

/-- Destination `d` exists along with an unrelated local file. -/
def wFSKeep : FS := ⟨[("keep.txt", [1])], ["d"]⟩

/-- Marker object and base listing used for the marker-insertion witness. -/
def wMarkerObj : S3Object := ⟨"hotels/20230202/done", "\"m\"", []⟩

def wBaseBucket : List S3Object := [⟨"hotels/20230101", "\"e\"", []⟩]

/-! ### Filesystem lemmas -/

theorem lookupFile_eraseFile_self (p : String) :
    ∀ l : List (String × List Nat), lookupFile (eraseFile l p) p = none := by
  intro l
  induction l with
  | nil => rfl
  | cons a l ih =>
    obtain ⟨k, v⟩ := a
    by_cases hk : k = p
    · simpa [eraseFile, hk] using ih
    · simpa [eraseFile, lookupFile, hk] using ih

theorem lookupFile_eraseFile_ne {p q : String} (h : p ≠ q) :
    ∀ l : List (String × List Nat), lookupFile (eraseFile l q) p = lookupFile l p := by
  intro l
  induction l with
  | nil => rfl
  | cons a l ih =>
    obtain ⟨k, v⟩ := a
    show lookupFile (if k = q then eraseFile l q else (k, v) :: eraseFile l q) p =
      (if k = p then some v else lookupFile l p)
    by_cases hk : k = q
    · have hkp : k ≠ p := by rw [hk]; exact fun hq => h hq.symm
      rw [if_pos hk, if_neg hkp, ih]
    · rw [if_neg hk]
      show (if k = p then some v else lookupFile (eraseFile l q) p) = _
      by_cases hp : k = p
      · rw [if_pos hp, if_pos hp]
      · rw [if_neg hp, if_neg hp, ih]

theorem readFile_writeFile_self (fs : FS) (p : String) (c : List Nat) :
    (fs.writeFile p c).readFile p = some c := by
  simp [FS.writeFile, FS.readFile, lookupFile]

theorem readFile_writeFile_ne (fs : FS) {p q : String} (h : p ≠ q) (c : List Nat) :
    (fs.writeFile q c).readFile p = fs.readFile p := by
  have : q ≠ p := fun hq => h hq.symm
  simp [FS.writeFile, FS.readFile, lookupFile, this, lookupFile_eraseFile_ne h]

theorem readFile_removeFile_self (fs : FS) (p : String) :
    (fs.removeFile p).readFile p = none := by
  simp [FS.removeFile, FS.readFile, lookupFile_eraseFile_self]

theorem readFile_removeFile_ne (fs : FS) {p q : String} (h : p ≠ q) :
    (fs.removeFile q).readFile p = fs.readFile p := by
  simp [FS.removeFile, FS.readFile, lookupFile_eraseFile_ne h]

theorem readFile_makedirs (fs : FS) (d p : String) :
    (fs.makedirs d).readFile p = fs.readFile p := rfl

/-- A path never equals its own `_tmp`-suffixed form. -/
theorem ne_append_tmp (s : String) : s ≠ s ++ "_tmp" := by
  intro h
  have h2 := congrArg String.length h
  rw [String.length_append] at h2
  have h3 : ("_tmp" : String).length = 4 := rfl
  omega

/-- After a verified download, `rename` moves the temp file: the source
binding disappears and the destination holds exactly the written bytes. -/
theorem rename_writeFile (fs : FS) (src dst : String) (c : List Nat) :
    (fs.writeFile src c).rename src dst =
      ((fs.writeFile src c).removeFile src).writeFile dst c := by
  simp [FS.rename, readFile_writeFile_self]

/-! ### Resolver lemmas -/

theorem charListLt_iff :
    ∀ as bs : List Char, charListLt as bs = true ↔ List.Lex (· < ·) as bs := by
  intro as
  induction as with
  | nil =>
    intro bs
    cases bs with
    | nil =>
      constructor
      · intro h; exact absurd h (by simp [charListLt])
      · intro h; cases h
    | cons b bs =>
      exact ⟨fun _ => List.Lex.nil, fun _ => rfl⟩
  | cons a as ih =>
    intro bs
    cases bs with
    | nil =>
      constructor
      · intro h; exact absurd h (by simp [charListLt])
      · intro h; cases h
    | cons b bs =>
      show (if a < b then true else if b < a then false else charListLt as bs) = true ↔ _
      by_cases hab : a < b
      · rw [if_pos hab]
        exact ⟨fun _ => List.Lex.rel hab, fun _ => rfl⟩
      · rw [if_neg hab]
        by_cases hba : b < a
        · rw [if_pos hba]
          constructor
          · intro h; exact absurd h (by simp)
          · intro h
            cases h with
            | cons h3 => exact absurd hba (lt_irrefl a)
            | rel h1 => exact absurd h1 hab
        · have hab2 : a = b := le_antisymm (le_of_not_lt hba) (le_of_not_lt hab)
          subst hab2
          rw [if_neg hba, ih bs]
          constructor
          · intro h3; exact List.Lex.cons h3
          · intro h3
            cases h3 with
            | cons h4 => exact h4
            | rel h4 => exact absurd h4 hab

/-- The boolean comparison used by the embedded code agrees with the
string order of the ambient `LinearOrder`. -/
theorem strLtb_iff (a b : String) : strLtb a b = true ↔ a < b := by
  rw [String.lt_iff_toList_lt]
  exact charListLt_iff a.data b.data

theorem resolveUpd_some (m d : String) :
    resolveUpd (some m) d = some (max m d) := by
  show (if strLtb m d then some d else some m) = some (max m d)
  by_cases h : m < d
  · rw [if_pos ((strLtb_iff m d).2 h), max_eq_right h.le]
  · have hb : strLtb m d = false := by
      rw [← Bool.not_eq_true, strLtb_iff]; exact h
    rw [if_neg (by rw [hb]; exact Bool.false_ne_true), max_eq_left (le_of_not_lt h)]

theorem foldl_resolveUpd_some (toks : List String) :
    ∀ m : String, toks.foldl resolveUpd (some m) = some (toks.foldl max m) := by
  induction toks with
  | nil => intro m; rfl
  | cons d toks ih =>
    intro m
    rw [List.foldl_cons, resolveUpd_some, ih, List.foldl_cons]

theorem foldl_resolveUpd_none (toks : List String) :
    toks.foldl resolveUpd none = toks.max? := by
  cases toks with
  | nil => rfl
  | cons d toks =>
    rw [List.foldl_cons]
    show toks.foldl resolveUpd (some d) = _
    rw [foldl_resolveUpd_some]
    rfl

theorem foldl_resolveStep_eq (l : List S3Object) :
    ∀ acc : Option String,
      l.foldl resolveStep acc =
        (l.filterMap fun o => matchDoneFile o.key).foldl resolveUpd acc := by
  induction l with
  | nil => intro acc; rfl
  | cons o l ih =>
    intro acc
    cases h : matchDoneFile o.key with
    | none => simp [List.foldl_cons, List.filterMap_cons, h, resolveStep, ih]
    | some d => simp [List.foldl_cons, List.filterMap_cons, h, resolveStep, ih]

theorem resolveLatest_eq_max (bucket : List S3Object) :
    resolveLatest bucket = (snapshotTokens bucket).max? := by
  unfold resolveLatest snapshotTokens
  rw [foldl_resolveStep_eq, foldl_resolveUpd_none]

/-! ### C1 -/

/-- C1: for every listing, the resolver returns the maximum token (under
the lexicographic string order) among the tokens extracted from keys that
match exactly one path segment under `hotels/`; when no key matches, the
run fails with the `"No complete dump folder found!"` condition and no
token is produced. -/
theorem resolver_returns_max_token (bucket : List S3Object) (dest : String) (fs0 : FS) :
    resolveLatest bucket = (snapshotTokens bucket).max? ∧
    (∀ m, resolveLatest bucket = some m →
      m ∈ snapshotTokens bucket ∧ ∀ t ∈ snapshotTokens bucket, t ≤ m) ∧
    (snapshotTokens bucket = [] →
      resolveLatest bucket = none ∧
      (downloadLatest bucket dest fs0).error = some noDumpErr) := by
  refine ⟨resolveLatest_eq_max bucket, ?_, ?_⟩
  · intro m hm
    rw [resolveLatest_eq_max bucket] at hm
    exact ⟨List.max?_mem max_choice hm,
      fun t ht => (List.max?_le_iff (fun _ _ _ => max_le_iff) hm).1 le_rfl t ht⟩
  · intro h
    have hnone : resolveLatest bucket = none := by
      rw [resolveLatest_eq_max bucket, h]; rfl
    exact ⟨hnone, by simp [downloadLatest, hnone]⟩

theorem resolver_returns_max_token_witness :
    ((downloadLatest [] "d" emptyFS).error = some noDumpErr ∧
      resolveLatest ([] : List S3Object) = none) ∧
    resolveLatest wBucketTwo = (snapshotTokens wBucketTwo).max? ∧
    resolveLatest wBucketTwo = some "b" := by
  have h1 := (resolver_returns_max_token [] "d" emptyFS).2.2 rfl
  exact ⟨⟨h1.2, h1.1⟩, (resolver_returns_max_token wBucketTwo "d" emptyFS).1, by decide⟩

/-! ### C2 -/

/-- C2 counterexample: a listing whose only snapshot `20230202` has no
`done` marker object anywhere (in particular not under its prefix), yet
the resolver returns `20230202` as the resolved token — contradicting the
claim that an unmarked snapshot is never returned. -/
theorem resolver_marker_check_cex :
    resolveLatest markerlessBucket = some "20230202" ∧
    (∀ o ∈ markerlessBucket, o.key ≠ "hotels/20230202/done") ∧
    (∀ o ∈ markerlessBucket, o.key ≠ "hotels/20230202/" ++ "done") := by
  refine ⟨by decide, by decide, by decide⟩

/-- C2 (amended): the resolver selects by folder name only and never
consults completion markers: inserting or removing any entry whose key
does not match the one-segment pattern `^hotels/([^/]+)$` — in particular
any `hotels/<token>/done` marker object — leaves the resolved token
unchanged.  Consequently a snapshot lacking the marker can be returned. -/
theorem resolver_ignores_marker_objects (l1 l2 : List S3Object) (o : S3Object)
    (h : matchDoneFile o.key = none) :
    resolveLatest (l1 ++ o :: l2) = resolveLatest (l1 ++ l2) := by
  have hstep : ∀ acc : Option String, resolveStep acc o = acc := by
    intro acc; simp [resolveStep, h]
  unfold resolveLatest filterPfx
  cases hp : "hotels/".data.isPrefixOf o.key.data with
  | false =>
    simp [List.filter_append, List.filter_cons, hp]
  | true =>
    simp [List.filter_append, List.filter_cons, hp, List.foldl_append, List.foldl_cons, hstep]

theorem resolver_ignores_marker_objects_witness :
    matchDoneFile wMarkerObj.key = none ∧
    resolveLatest ([] ++ wMarkerObj :: wBaseBucket) = resolveLatest ([] ++ wBaseBucket) ∧
    resolveLatest wBaseBucket = some "20230101" := by
  exact ⟨by decide,
    resolver_ignores_marker_objects [] wBaseBucket wMarkerObj (by decide),
    by decide⟩

/-! ### Synchronizer step lemmas -/

theorem syncStep_of_error (t : String) (st : RunState) (o : S3Object)
    (h : st.error.isSome) : syncStep t st o = st := by
  simp [syncStep, h]

theorem foldl_syncStep_of_error (t : String) (l : List S3Object) :
    ∀ st : RunState, st.error.isSome → l.foldl (syncStep t) st = st := by
  induction l with
  | nil => intro st _; rfl
  | cons o l ih =>
    intro st h
    rw [List.foldl_cons, syncStep_of_error t st o h]
    exact ih st h

theorem syncStep_skip_exists (t : String) (st : RunState) (o : S3Object)
    (h : st.fs.pathExists (finalPath t o) = true) : syncStep t st o = st := by
  by_cases herr : st.error.isSome
  · simp [syncStep, herr]
  · by_cases hdone : basenameOf o.key = "done"
    · simp [syncStep, herr, hdone]
    · simp [syncStep, herr, hdone, h]

theorem syncStep_skip_done (t : String) (st : RunState) (o : S3Object)
    (h : basenameOf o.key = "done") : syncStep t st o = st := by
  by_cases herr : st.error.isSome
  · simp [syncStep, herr]
  · simp [syncStep, herr, h]

theorem syncStep_download (t : String) (st : RunState) (o : S3Object)
    (herr : st.error = none) (hdone : basenameOf o.key ≠ "done")
    (hex : st.fs.pathExists (finalPath t o) = false) :
    syncStep t st o = syncDownload t st o := by
  have h1 : st.error.isSome = false := by rw [herr]; rfl
  simp [syncStep, h1, hdone, hex]

/-- Both outcomes of the download branch, with the temp-file read resolved
to the just-written bytes. -/
theorem syncDownload_eq (t : String) (st : RunState) (o : S3Object) :
    syncDownload t st o =
      if quoteTag (md5 o.content) = o.e_tag then
        { fs := ((st.fs.writeFile (tmpPath t o) o.content).removeFile
                    (tmpPath t o)).writeFile (finalPath t o) o.content,
          events := st.events ++
            [Event.downloadObject o.key (tmpPath t o),
             Event.verifyHash (tmpPath t o),
             Event.renameFile (tmpPath t o) (finalPath t o)],
          error := none }
      else
        { fs := st.fs.writeFile (tmpPath t o) o.content,
          events := st.events ++
            [Event.downloadObject o.key (tmpPath t o),
             Event.verifyHash (tmpPath t o)],
          error := some checksumErr } := by
  simp only [syncDownload, readFile_writeFile_self, Option.getD_some, rename_writeFile,
    List.append_assoc, List.cons_append, List.nil_append]

/-! ### C3 -/

/-- C3: for every listing entry whose basename already exists at its final
local path, the synchronizer step leaves the state untouched: no download,
no hash verification, no event at all for that entry. -/
theorem sync_skips_existing_file (t : String) (st : RunState) (o : S3Object)
    (h : st.fs.pathExists (finalPath t o) = true) :
    syncStep t st o = st ∧ (syncStep t st o).events = st.events := by
  have h1 := syncStep_skip_exists t st o h
  exact ⟨h1, by rw [h1]⟩

theorem sync_skips_existing_file_witness :
    wStExisting.fs.pathExists (finalPath "d/hotels/t" wObjExisting) = true ∧
    syncStep "d/hotels/t" wStExisting wObjExisting = wStExisting := by
  exact ⟨by decide,
    (sync_skips_existing_file "d/hotels/t" wStExisting wObjExisting (by decide)).1⟩

/-! ### C7 -/

/-- C7: for every listing entry whose basename is the literal
completion-marker name `done`, the synchronizer step leaves the state
untouched: the marker is never downloaded. -/
theorem sync_skips_done_marker (t : String) (st : RunState) (o : S3Object)
    (h : basenameOf o.key = "done") :
    syncStep t st o = st ∧ (syncStep t st o).events = st.events := by
  have h1 := syncStep_skip_done t st o h
  exact ⟨h1, by rw [h1]⟩

theorem sync_skips_done_marker_witness :
    basenameOf wObjDone.key = "done" ∧
    syncStep "d/hotels/t" wStEmpty wObjDone = wStEmpty := by
  exact ⟨by decide, (sync_skips_done_marker "d/hotels/t" wStEmpty wObjDone (by decide)).1⟩

/-! ### C5 -/

/-- C5: when the quoted hash of a downloaded temp file does not match the
entry's e-tag, the run aborts with the integrity error, the temp file
`<basename>_tmp` remains on disk holding the downloaded bytes, and no file
exists at the final name — neither the rename nor any later iteration
creates it. -/
theorem mismatch_aborts_leaves_tmp (t : String) (st : RunState) (o : S3Object)
    (rest : List S3Object)
    (herr : st.error = none) (hdone : basenameOf o.key ≠ "done")
    (hex : st.fs.pathExists (finalPath t o) = false)
    (hmis : quoteTag (md5 o.content) ≠ o.e_tag) :
    ((o :: rest).foldl (syncStep t) st).error = some checksumErr ∧
    ((o :: rest).foldl (syncStep t) st).fs.readFile (tmpPath t o) = some o.content ∧
    ((o :: rest).foldl (syncStep t) st).fs.fileExists (finalPath t o) = false := by
  have hrun : (o :: rest).foldl (syncStep t) st =
      { fs := st.fs.writeFile (tmpPath t o) o.content,
        events := st.events ++
          [Event.downloadObject o.key (tmpPath t o), Event.verifyHash (tmpPath t o)],
        error := some checksumErr } := by
    rw [List.foldl_cons, syncStep_download t st o herr hdone hex, syncDownload_eq,
      if_neg hmis]
    exact foldl_syncStep_of_error t rest _ rfl
  have hfe : st.fs.fileExists (finalPath t o) = false := by
    have h2 : (st.fs.fileExists (finalPath t o) || st.fs.dirExists (finalPath t o)) = false :=
      hex
    exact (Bool.or_eq_false_iff.mp h2).1
  refine ⟨by rw [hrun], ?_, ?_⟩
  · rw [hrun]
    exact readFile_writeFile_self st.fs (tmpPath t o) o.content
  · rw [hrun]
    show ((st.fs.writeFile (tmpPath t o) o.content).readFile (finalPath t o)).isSome = false
    have hne : finalPath t o ≠ tmpPath t o := ne_append_tmp (finalPath t o)
    rw [readFile_writeFile_ne st.fs hne o.content]
    exact hfe

theorem mismatch_aborts_leaves_tmp_witness :
    (wStEmpty.error = none ∧ basenameOf wObjBad.key ≠ "done" ∧
     wStEmpty.fs.pathExists (finalPath "d/hotels/t" wObjBad) = false ∧
     quoteTag (md5 wObjBad.content) ≠ wObjBad.e_tag) ∧
    (([wObjBad].foldl (syncStep "d/hotels/t") wStEmpty).error = some checksumErr ∧
     ([wObjBad].foldl (syncStep "d/hotels/t") wStEmpty).fs.readFile
       (tmpPath "d/hotels/t" wObjBad) = some wObjBad.content ∧
     ([wObjBad].foldl (syncStep "d/hotels/t") wStEmpty).fs.fileExists
       (finalPath "d/hotels/t" wObjBad) = false) := by
  exact ⟨⟨rfl, by decide, by decide, by decide⟩,
    mismatch_aborts_leaves_tmp "d/hotels/t" wStEmpty wObjBad [] rfl
      (by decide) (by decide) (by decide)⟩

/-! ### Run-level invariants -/

/-- Any change the synchronizer fold makes to the content at a path is
accounted for by some processed entry: either the path is that entry's
temp path (holding its raw downloaded bytes, or emptied again by its
rename), or it is that entry's final path, holding bytes whose quoted
hash matched the entry's e-tag. -/
theorem foldl_syncStep_change (t : String) :
    ∀ (l : List S3Object) (st : RunState) (p : String),
      (l.foldl (syncStep t) st).fs.readFile p ≠ st.fs.readFile p →
      ∃ o, o ∈ l ∧
        ((p = tmpPath t o ∧
           ((l.foldl (syncStep t) st).fs.readFile p = some o.content ∨
            (l.foldl (syncStep t) st).fs.readFile p = none)) ∨
         (p = finalPath t o ∧
           (l.foldl (syncStep t) st).fs.readFile p = some o.content ∧
           quoteTag (md5 o.content) = o.e_tag)) := by
  intro l
  induction l with
  | nil => intro st p h; exact absurd rfl h
  | cons o l ih =>
    intro st p h
    rw [List.foldl_cons] at h ⊢
    by_cases hch : (l.foldl (syncStep t) (syncStep t st o)).fs.readFile p =
        (syncStep t st o).fs.readFile p
    case neg =>
      obtain ⟨o2, ho2, hprop⟩ := ih (syncStep t st o) p hch
      exact ⟨o2, List.mem_cons_of_mem o ho2, hprop⟩
    case pos =>
      have hst : (syncStep t st o).fs.readFile p ≠ st.fs.readFile p :=
        fun he => h (hch.trans he)
      by_cases herr : st.error.isSome
      · rw [syncStep_of_error t st o herr] at hst; exact absurd rfl hst
      · by_cases hdone : basenameOf o.key = "done"
        · rw [syncStep_skip_done t st o hdone] at hst; exact absurd rfl hst
        · by_cases hex : st.fs.pathExists (finalPath t o) = true
          · rw [syncStep_skip_exists t st o hex] at hst; exact absurd rfl hst
          · have herr2 : st.error = none := Option.not_isSome_iff_eq_none.mp herr
            have hex2 : st.fs.pathExists (finalPath t o) = false := by
              revert hex; cases st.fs.pathExists (finalPath t o) <;> simp
            have hdl := syncStep_download t st o herr2 hdone hex2
            by_cases htag : quoteTag (md5 o.content) = o.e_tag
            · have hfs : (syncStep t st o).fs =
                  ((st.fs.writeFile (tmpPath t o) o.content).removeFile
                      (tmpPath t o)).writeFile (finalPath t o) o.content := by
                rw [hdl, syncDownload_eq, if_pos htag]
              by_cases hpf : p = finalPath t o
              · refine ⟨o, List.mem_cons_self o l, Or.inr ⟨hpf, ?_, htag⟩⟩
                rw [hch, hfs, hpf, readFile_writeFile_self]
              · by_cases hpt : p = tmpPath t o
                · refine ⟨o, List.mem_cons_self o l, Or.inl ⟨hpt, Or.inr ?_⟩⟩
                  rw [hch, hfs]
                  rw [readFile_writeFile_ne _ hpf, hpt, readFile_removeFile_self]
                · exfalso
                  apply hst
                  rw [hfs, readFile_writeFile_ne _ hpf, readFile_removeFile_ne _ hpt,
                    readFile_writeFile_ne _ hpt]
            · have hfs : (syncStep t st o).fs =
                  st.fs.writeFile (tmpPath t o) o.content := by
                rw [hdl, syncDownload_eq, if_neg htag]
              by_cases hpt : p = tmpPath t o
              · refine ⟨o, List.mem_cons_self o l, Or.inl ⟨hpt, Or.inl ?_⟩⟩
                rw [hch, hfs, hpt, readFile_writeFile_self]
              · exfalso
                apply hst
                rw [hfs, readFile_writeFile_ne _ hpt]

/-- Files present before the synchronizer fold survive it unchanged,
except possibly at the temp path of some processed entry. -/
theorem foldl_syncStep_frame (t : String) :
    ∀ (l : List S3Object) (st : RunState) (p : String) (c : List Nat),
      st.fs.readFile p = some c →
      (l.foldl (syncStep t) st).fs.readFile p = some c ∨
        ∃ o, o ∈ l ∧ p = tmpPath t o := by
  intro l
  induction l with
  | nil => intro st p c h; exact Or.inl h
  | cons o l ih =>
    intro st p c h
    rw [List.foldl_cons]
    by_cases hpt : p = tmpPath t o
    · exact Or.inr ⟨o, List.mem_cons_self o l, hpt⟩
    · have hpres : (syncStep t st o).fs.readFile p = some c := by
        by_cases herr : st.error.isSome
        · rw [syncStep_of_error t st o herr]; exact h
        · by_cases hdone : basenameOf o.key = "done"
          · rw [syncStep_skip_done t st o hdone]; exact h
          · by_cases hex : st.fs.pathExists (finalPath t o) = true
            · rw [syncStep_skip_exists t st o hex]; exact h
            · have herr2 : st.error = none := Option.not_isSome_iff_eq_none.mp herr
              have hex2 : st.fs.pathExists (finalPath t o) = false := by
                revert hex; cases st.fs.pathExists (finalPath t o) <;> simp
              have hdl := syncStep_download t st o herr2 hdone hex2
              have hpf : p ≠ finalPath t o := by
                intro he
                have hfe : st.fs.fileExists (finalPath t o) = false :=
                  (Bool.or_eq_false_iff.mp hex2).1
                have : (st.fs.readFile (finalPath t o)).isSome = false := hfe
                rw [← he, h] at this
                exact absurd this (by simp)
              by_cases htag : quoteTag (md5 o.content) = o.e_tag
              · have hfs : (syncStep t st o).fs =
                    ((st.fs.writeFile (tmpPath t o) o.content).removeFile
                        (tmpPath t o)).writeFile (finalPath t o) o.content := by
                  rw [hdl, syncDownload_eq, if_pos htag]
                rw [hfs, readFile_writeFile_ne _ hpf, readFile_removeFile_ne _ hpt,
                  readFile_writeFile_ne _ hpt]
                exact h
              · have hfs : (syncStep t st o).fs =
                    st.fs.writeFile (tmpPath t o) o.content := by
                  rw [hdl, syncDownload_eq, if_neg htag]
                rw [hfs, readFile_writeFile_ne _ hpt]
                exact h
      rcases ih (syncStep t st o) p c hpres with h2 | ⟨o2, ho2, hp2⟩
      · exact Or.inl h2
      · exact Or.inr ⟨o2, List.mem_cons_of_mem o ho2, hp2⟩

/-- Reduction of `downloadLatest` once the resolver result is known. -/
theorem downloadLatest_some (bucket : List S3Object) (dest : String) (fs0 : FS)
    (d : String) (hres : resolveLatest bucket = some d) :
    downloadLatest bucket dest fs0 =
      (filterPfx ("hotels/" ++ d) bucket).foldl
        (syncStep (joinPath (joinPath dest "hotels") d))
        { fs := if fs0.pathExists (joinPath (joinPath dest "hotels") d) then fs0
                else fs0.makedirs (joinPath (joinPath dest "hotels") d),
          events := [Event.listObjects "hotels/",
                     Event.listObjects ("hotels/" ++ d)],
          error := none } := by
  unfold downloadLatest
  rw [hres]
  rfl

theorem downloadLatest_none (bucket : List S3Object) (dest : String) (fs0 : FS)
    (hres : resolveLatest bucket = none) :
    downloadLatest bucket dest fs0 =
      { fs := fs0, events := [Event.listObjects "hotels/"], error := some noDumpErr } := by
  unfold downloadLatest
  rw [hres]

/-! ### C9 -/

/-- C9 counterexample: in the run over `appearBucket` from `appearFS`, the
download of entry `hotels/t/a` aborts on a checksum mismatch and strands
its raw bytes at `d/hotels/t/a_tmp` — which is exactly the final local
path of the listed entry `hotels/t/a_tmp`.  A file thus appears at a final
local path without having been downloaded to that entry's temp path,
verified against that entry's e-tag, or renamed into place. -/
theorem final_path_appearance_cex :
    (downloadLatest appearBucket "d" appearFS).fs.readFile "d/hotels/t/a_tmp" = some [1] ∧
    appearFS.readFile "d/hotels/t/a_tmp" = none ∧
    (⟨"hotels/t/a_tmp", "\"other\"", [2]⟩ : S3Object) ∈ appearBucket ∧
    finalPath "d/hotels/t" ⟨"hotels/t/a_tmp", "\"other\"", [2]⟩ = "d/hotels/t/a_tmp" ∧
    quoteTag (md5 [1]) ≠ "\"other\"" ∧
    (downloadLatest appearBucket "d" appearFS).events =
      [Event.listObjects "hotels/", Event.listObjects "hotels/t",
       Event.downloadObject "hotels/t/a" "d/hotels/t/a_tmp",
       Event.verifyHash "d/hotels/t/a_tmp"] := by
  refine ⟨by decide, by decide, by decide, by decide, by decide, by decide⟩

/-- C9 (amended): in every run, the content at a path changes only on
account of some listing entry processed under the resolved token: either
the path is that entry's `<basename>_tmp` temp path — holding exactly the
entry's downloaded bytes, or emptied by its rename — or it is that entry's
final path and holds the entry's bytes whose quoted MD5 matched the
entry's e-tag before the single rename.  Downloads are written only to
`_tmp`-suffixed paths, but such a temp path can coincide with the final
path of a different entry. -/
theorem file_change_invariant (bucket : List S3Object) (dest : String) (fs0 : FS)
    (p : String)
    (h : (downloadLatest bucket dest fs0).fs.readFile p ≠ fs0.readFile p) :
    ∃ d, resolveLatest bucket = some d ∧
      ∃ o, o ∈ filterPfx ("hotels/" ++ d) bucket ∧
        ((p = tmpPath (joinPath (joinPath dest "hotels") d) o ∧
           ((downloadLatest bucket dest fs0).fs.readFile p = some o.content ∨
            (downloadLatest bucket dest fs0).fs.readFile p = none)) ∨
         (p = finalPath (joinPath (joinPath dest "hotels") d) o ∧
           (downloadLatest bucket dest fs0).fs.readFile p = some o.content ∧
           quoteTag (md5 o.content) = o.e_tag)) := by
  cases hres : resolveLatest bucket with
  | none =>
    exfalso
    apply h
    rw [downloadLatest_none bucket dest fs0 hres]
  | some d =>
    refine ⟨d, rfl, ?_⟩
    rw [downloadLatest_some bucket dest fs0 d hres] at h ⊢
    have hst0 :
        ({ fs := if fs0.pathExists (joinPath (joinPath dest "hotels") d) then fs0
                 else fs0.makedirs (joinPath (joinPath dest "hotels") d),
           events := [Event.listObjects "hotels/", Event.listObjects ("hotels/" ++ d)],
           error := none } : RunState).fs.readFile p = fs0.readFile p := by
      show (if fs0.pathExists (joinPath (joinPath dest "hotels") d) = true then fs0
            else fs0.makedirs (joinPath (joinPath dest "hotels") d)).readFile p =
        fs0.readFile p
      by_cases hexd : fs0.pathExists (joinPath (joinPath dest "hotels") d) = true
      · rw [if_pos hexd]
      · rw [if_neg hexd]
        exact readFile_makedirs fs0 _ p
    apply foldl_syncStep_change
    intro he
    exact h (he.trans hst0)

theorem file_change_invariant_witness :
    (downloadLatest wBucketOk "d" wFSDir).fs.readFile "d/hotels/t/t" ≠
      wFSDir.readFile "d/hotels/t/t" ∧
    (∃ d, resolveLatest wBucketOk = some d ∧
      ∃ o, o ∈ filterPfx ("hotels/" ++ d) wBucketOk ∧
        (("d/hotels/t/t" = tmpPath (joinPath (joinPath "d" "hotels") d) o ∧
           ((downloadLatest wBucketOk "d" wFSDir).fs.readFile "d/hotels/t/t" = some o.content ∨
            (downloadLatest wBucketOk "d" wFSDir).fs.readFile "d/hotels/t/t" = none)) ∨
         ("d/hotels/t/t" = finalPath (joinPath (joinPath "d" "hotels") d) o ∧
           (downloadLatest wBucketOk "d" wFSDir).fs.readFile "d/hotels/t/t" = some o.content ∧
           quoteTag (md5 o.content) = o.e_tag))) := by
  exact ⟨by decide, file_change_invariant wBucketOk "d" wFSDir "d/hotels/t/t" (by decide)⟩

/-! ### C10 -/

/-- C10 counterexample: in the run over `frameBucket` from `frameFS`, the
file at `d/hotels/t/a_tmp` — the final, verified local file of listed
entry `hotels/t/a_tmp` — is first overwritten by the download of entry
`hotels/t/a` and then renamed away: after a run that ends without error,
the previously existing final file is gone.  The run has overwritten and
deleted a file that already existed at a final local path. -/
theorem frame_preservation_cex :
    frameFS.readFile "d/hotels/t/a_tmp" = some [5] ∧
    (⟨"hotels/t/a_tmp", quoteTag (md5 [5]), [5]⟩ : S3Object) ∈ frameBucket ∧
    finalPath "d/hotels/t" ⟨"hotels/t/a_tmp", quoteTag (md5 [5]), [5]⟩ = "d/hotels/t/a_tmp" ∧
    (downloadLatest frameBucket "d" frameFS).error = none ∧
    (downloadLatest frameBucket "d" frameFS).fs.readFile "d/hotels/t/a_tmp" = none ∧
    (downloadLatest frameBucket "d" frameFS).fs.readFile "d/hotels/t/a" = some [7] := by
  refine ⟨by decide, by decide, by decide, by decide, by decide, by decide⟩

/-- C10 (amended): a run never changes or removes an existing file except
at paths of the form `<basename>_tmp` for an entry processed under the
resolved token: every pre-existing file either survives with its content
intact or sits at such a temp path (which can coincide with another
entry's final path).  Renames target a final path only after it was
checked absent in the same iteration. -/
theorem existing_files_frame (bucket : List S3Object) (dest : String) (fs0 : FS)
    (p : String) (c : List Nat) (h : fs0.readFile p = some c) :
    (downloadLatest bucket dest fs0).fs.readFile p = some c ∨
    ∃ d, resolveLatest bucket = some d ∧
      ∃ o, o ∈ filterPfx ("hotels/" ++ d) bucket ∧
        p = tmpPath (joinPath (joinPath dest "hotels") d) o := by
  cases hres : resolveLatest bucket with
  | none =>
    rw [downloadLatest_none bucket dest fs0 hres]
    exact Or.inl h
  | some d =>
    rw [downloadLatest_some bucket dest fs0 d hres]
    have hst0 :
        ({ fs := if fs0.pathExists (joinPath (joinPath dest "hotels") d) then fs0
                 else fs0.makedirs (joinPath (joinPath dest "hotels") d),
           events := [Event.listObjects "hotels/", Event.listObjects ("hotels/" ++ d)],
           error := none } : RunState).fs.readFile p = fs0.readFile p := by
      show (if fs0.pathExists (joinPath (joinPath dest "hotels") d) = true then fs0
            else fs0.makedirs (joinPath (joinPath dest "hotels") d)).readFile p =
        fs0.readFile p
      by_cases hexd : fs0.pathExists (joinPath (joinPath dest "hotels") d) = true
      · rw [if_pos hexd]
      · rw [if_neg hexd]
        exact readFile_makedirs fs0 _ p
    rcases foldl_syncStep_frame (joinPath (joinPath dest "hotels") d)
        (filterPfx ("hotels/" ++ d) bucket)
        { fs := if fs0.pathExists (joinPath (joinPath dest "hotels") d) then fs0
                else fs0.makedirs (joinPath (joinPath dest "hotels") d),
          events := [Event.listObjects "hotels/", Event.listObjects ("hotels/" ++ d)],
          error := none } p c (hst0.trans h) with h2 | ⟨o, ho, hp⟩
    · exact Or.inl h2
    · exact Or.inr ⟨d, rfl, o, ho, hp⟩

theorem existing_files_frame_witness :
    wFSKeep.readFile "keep.txt" = some [1] ∧
    ((downloadLatest wBucketOk "d" wFSKeep).fs.readFile "keep.txt" = some [1] ∨
     ∃ d, resolveLatest wBucketOk = some d ∧
       ∃ o, o ∈ filterPfx ("hotels/" ++ d) wBucketOk ∧
         "keep.txt" = tmpPath (joinPath (joinPath "d" "hotels") d) o) ∧
    (downloadLatest wBucketOk "d" wFSKeep).fs.readFile "keep.txt" = some [1] := by
  exact ⟨by decide,
    existing_files_frame wBucketOk "d" wFSKeep "keep.txt" [1] (by decide),
    by decide⟩

/-! ### C6 -/

/-- C6: when the destination folder does not exist or is not a directory,
the program fails immediately with the configuration error and performs no
remote interaction: the event log is empty — in particular it records no
listing call and no download. -/
theorem config_error_before_remote (bucket : List S3Object) (dest : String) (fs0 : FS)
    (h : (fs0.pathExists dest && fs0.dirExists dest) = false) :
    mainRun bucket dest fs0 = { fs := fs0, events := [], error := some destErr } ∧
    (mainRun bucket dest fs0).events.filter Event.isRemote = [] := by
  have h1 : mainRun bucket dest fs0 = { fs := fs0, events := [], error := some destErr } := by
    simp [mainRun, h]
  exact ⟨h1, by rw [h1]; rfl⟩

theorem config_error_before_remote_witness :
    (emptyFS.pathExists "d" && emptyFS.dirExists "d") = false ∧
    mainRun [] "d" emptyFS = { fs := emptyFS, events := [], error := some destErr } := by
  exact ⟨by decide, (config_error_before_remote [] "d" emptyFS (by decide)).1⟩

/-! ### MD5 streaming lemmas -/

theorem foldl_update_eq_append :
    ∀ (l : List (List Nat)) (acc : List Nat), l.foldl md5ctxUpdate acc = acc ++ l.flatten := by
  intro l
  induction l with
  | nil => intro acc; simp
  | cons a l ih =>
    intro acc
    rw [List.foldl_cons, List.flatten_cons]
    show l.foldl md5ctxUpdate (acc ++ a) = acc ++ (a ++ l.flatten)
    rw [ih, List.append_assoc]

theorem chunksFuel_flatten {n : Nat} (hn : 0 < n) :
    ∀ (fuel : Nat) (l : List α), l.length ≤ fuel → (chunksFuel n fuel l).flatten = l := by
  intro fuel
  induction fuel with
  | zero =>
    intro l hl
    have : l = [] := List.eq_nil_of_length_eq_zero (Nat.le_zero.mp hl)
    subst this
    rfl
  | succ fuel ih =>
    intro l hl
    cases l with
    | nil => rfl
    | cons a l2 =>
      show ((a :: l2).take n :: chunksFuel n fuel ((a :: l2).drop n)).flatten = a :: l2
      rw [List.flatten_cons, ih ((a :: l2).drop n) ?_, List.take_append_drop]
      rw [List.length_drop]
      simp only [List.length_cons] at hl ⊢
      omega

theorem chunksOf_flatten {n : Nat} (hn : 0 < n) (l : List α) :
    (chunksOf n l).flatten = l :=
  chunksFuel_flatten hn l.length l le_rfl

/-- The streaming `md5` of the source — feed the file to the context in
4096-byte chunks — hashes exactly the whole content. -/
theorem md5_eq_md5Hex (content : List Nat) : md5 content = md5Hex content := by
  unfold md5 md5ctxHexdigest
  rw [foldl_update_eq_append, List.nil_append, chunksOf_flatten (by omega)]

/-! ### C8 -/

/-- C8: the streaming hash computation is total and deterministic — for
every finite content, chunked hashing returns the one MD5 hex digest of
the whole content, so repeated runs on unchanged content agree; this
includes the zero-byte file (whose digest is the MD5 empty digest) and a
file larger than the 4096-byte chunk size. -/
theorem md5_streaming_total_deterministic :
    (∀ content : List Nat, md5 content = md5Hex content) ∧
    md5 [] = "d41d8cd98f00b204e9800998ecf8427e" ∧
    md5 (List.replicate 5000 7) = md5Hex (List.replicate 5000 7) := by
  exact ⟨md5_eq_md5Hex, by decide, md5_eq_md5Hex _⟩

/-! ### C4 -/

/-- C4 counterexample: the two Wang collision messages differ (in six
bytes), yet the verifier's quoted computed hash of the first equals the
single-part e-tag of the second: equal quoted hashes do not imply
identical byte sequences, refuting the "exactly when" biconditional. -/
theorem verifier_biconditional_cex :
    quoteTag (md5 wangM1) = singlePartETag wangM2 ∧ wangM1 ≠ wangM2 := by
  exact ⟨by decide, by decide⟩

/-- C4 (amended): if the local file's bytes are identical to the remote
object's bytes, the verifier's quoted computed hash equals the single-part
e-tag (no false mismatch); contrapositively, a mismatch implies the byte
sequences differ.  (The converse fails: MD5 collisions exist.) -/
theorem verifier_identical_bytes_match (lb rb : List Nat) :
    (lb = rb → quoteTag (md5 lb) = singlePartETag rb) ∧
    (quoteTag (md5 lb) ≠ singlePartETag rb → lb ≠ rb) := by
  have h1 : lb = rb → quoteTag (md5 lb) = singlePartETag rb := by
    intro h
    subst h
    show quoteTag (md5 lb) = quoteTag (md5Hex lb)
    rw [md5_eq_md5Hex]
  exact ⟨h1, fun hne he => hne (h1 he)⟩

theorem verifier_identical_bytes_match_witness :
    quoteTag (md5 ([] : List Nat)) = singlePartETag [] ∧
    singlePartETag [] = "\"d41d8cd98f00b204e9800998ecf8427e\"" := by
  exact ⟨(verifier_identical_bytes_match [] []).1 rfl, by decide⟩

end HotelDump
